import Mathlib

/-!
Shallow embedding of the connection-pool behaviour
(`connection-pool/src/behaviour.rs`) of the nox repository.

Modelling choices:
* `PeerId` and `Multiaddr` are represented by `Nat` (both are opaque,
  equality-comparable and hashable in the source).
* Rust `HashSet<Multiaddr>` becomes a duplicate-free `List Nat` with
  membership-guarded insertion (`sinsert`), filtering removal (`serase`)
  and fold-based extension (`sextend`); iteration order of a `HashSet` is
  arbitrary in the source, here fixed to insertion order.  All claims about
  these sets are stated up to membership.
* Rust `HashMap<K, V>` becomes an association list `List (Nat × V)` with
  first-match lookup (`mfind`), in-place replacement on insert (`minsert`)
  and full removal on erase (`merase`); the source maps always have unique
  keys, on which these agree with `HashMap` semantics.
* One-shot reply channels (`oneshot::Sender<_>`) are opaque promise ids
  (`Nat`); resolving a promise is recorded as an `Effect` in the output
  trace of an operation, since the source sends on the channel and drops it.
* The swarm-action queue `self.events: VecDeque<SwarmEventType>` is kept in
  the state, exactly as in the source; `push_event` appends to it.
* Broadcasting a lifecycle event to subscribers is recorded as a single
  `Effect.lifecycle` trace entry (the source clones the event to each
  subscriber; whether a subscriber channel is still open is external
  nondeterminism abstracted away, and the claims only count broadcasts).
* The `connected_peers` metrics gauge is modelled as always present
  (`gauge : Int`), updated exactly where the source calls
  `m.connected_peers.set(self.contacts.len() as i64)`.
-/

namespace ConnectionPool

/-- `HashSet::insert`: add an element unless already present. -/
def sinsert (l : List Nat) (a : Nat) : List Nat :=
  if a ∈ l then l else l ++ [a]

/-- `HashSet::remove`: drop the element. -/
def serase (l : List Nat) (a : Nat) : List Nat :=
  l.filter (fun x => x ≠ a)

/-- `HashSet::extend`: insert each element of `xs` in turn. -/
def sextend (l : List Nat) (xs : List Nat) : List Nat :=
  xs.foldl sinsert l

/-- `xs.iter().collect::<HashSet<_>>()`: a set from a list. -/
def sofList (xs : List Nat) : List Nat :=
  sextend [] xs

/-- Association-list lookup: first binding of the key, like `HashMap::get`. -/
def mfind {β : Type} (m : List (Nat × β)) (k : Nat) : Option β :=
  match m with
  | [] => none
  | (k1, v) :: rest => if k1 = k then some v else mfind rest k

/-- Association-list insert/replace, like `HashMap::insert` or mutating the
value found through `Entry::Occupied` / `get_mut` in place. -/
def minsert {β : Type} (m : List (Nat × β)) (k : Nat) (v : β) : List (Nat × β) :=
  match m with
  | [] => [(k, v)]
  | (k1, v1) :: rest => if k1 = k then (k, v) :: rest else (k1, v1) :: minsert rest k v

/-- Association-list removal, like `HashMap::remove` (on unique-keyed maps). -/
def merase {β : Type} (m : List (Nat × β)) (k : Nat) : List (Nat × β) :=
  m.filter (fun kv => kv.1 ≠ k)

/-- `Contact` from `particle-protocol/src/contact.rs`: a peer id together
with an ordered sequence of multiaddresses. -/
structure Contact where
  peer_id : Nat
  addresses : List Nat
deriving DecidableEq

/-- `SendStatus` outcome type of a `Send` command (variants used by the
behaviour: `Ok`, `NotConnected`; the remaining variants are produced by the
facade/handler). -/
inductive SendStatus where
  | ok
  | notConnected
  | timedOut
  | failed
deriving DecidableEq

/-- `LifecycleEvent` from `connection_pool.rs`: `Connected` / `Disconnected`. -/
inductive LifecycleEvent where
  | connected (c : Contact)
  | disconnected (c : Contact)
deriving DecidableEq

/-- `HandlerMessage` of the per-connection protocol handler: inbound
particle, outbound particle with its completion channel, or a bare upgrade.
Particles and completion channels are opaque ids. -/
inductive HandlerMessage where
  | inParticle (particle : Nat)
  | outParticle (particle : Nat) (completion : Nat)
  | upgrade
deriving DecidableEq

/-- Swarm actions the behaviour emits (`ToSwarm::Dial`,
`ToSwarm::CloseConnection`, `ToSwarm::NotifyHandler`).  A dial built with
`DialOpts::unknown_peer_id` carries `none`. -/
inductive SwarmAction where
  | dial (peer : Option Nat) (addrs : List Nat)
  | closeConnection (peer : Nat)
  | notifyHandler (peer : Nat) (message : HandlerMessage)
deriving DecidableEq

/-- Observable channel resolutions and lifecycle broadcasts produced by one
operation, in the order the source performs them. -/
inductive Effect where
  | boolResolved (promise : Nat) (value : Bool)
  | contactResolved (promise : Nat) (value : Option Contact)
  | sendResolved (promise : Nat) (value : SendStatus)
  | natResolved (promise : Nat) (value : Nat)
  | lifecycle (event : LifecycleEvent)
deriving DecidableEq

/-- `Peer`: per-peer record of connected/discovered/dialing addresses and
pending dial promises (`behaviour.rs`, struct `Peer`). -/
structure Peer where
  connected : List Nat
  discovered : List Nat
  dialing : List Nat
  dial_promises : List Nat
deriving DecidableEq

instance : Inhabited Peer := ⟨⟨[], [], [], []⟩⟩

namespace Peer

/-- `Peer::default()`: all sets empty, no promises. -/
def default : Peer := ⟨[], [], [], []⟩

/-- `Peer::addresses()`: the three address sets chained and collected into
a `HashSet`, i.e. their deduplicated union. -/
def addressesList (p : Peer) : List Nat :=
  sofList (p.connected ++ p.discovered ++ p.dialing)

/-- `Peer::connected(addresses)` constructor. -/
def mkConnected (addresses : List Nat) : Peer :=
  ⟨sofList addresses, [], [], []⟩

/-- `Peer::dialing(addresses, outlet)` constructor. -/
def mkDialing (addresses : List Nat) (outlet : Nat) : Peer :=
  ⟨[], [], sofList addresses, [outlet]⟩

end Peer

/-- The mutable state of `ConnectionPoolBehaviour` that the claims are
about: local peer id, staging queue of particle ids, the peer-record
table `contacts`, the address-keyed `dialing` registry of pending dial
promises, the queued swarm actions `events`, the subscriber list, and
the `connected_peers` gauge. -/
structure PoolState where
  peer_id : Nat
  queue : List Nat
  contacts : List (Nat × Peer)
  dialing : List (Nat × List Nat)
  events : List SwarmAction
  subscribers : List Nat
  gauge : Int
deriving DecidableEq

namespace ConnectionPoolBehaviour

open ConnectionPool

/-- `ConnectionPoolBehaviour::dial`: register the reply in the dialing
registry under `address` and emit a `Dial` with unknown peer id. -/
def dial (s : PoolState) (address : Nat) (out : Nat) : PoolState × List Effect :=
  let prev := (mfind s.dialing address).getD []
  ({ s with
      dialing := minsert s.dialing address (prev ++ [out])
      events := s.events ++ [SwarmAction.dial none [address]] }, [])

/-- The `Entry::Occupied` branch of `connect` (`behaviour.rs` 149-175):
`new_addrs` collects the provided addresses not already in `dialing`;
`not_connected` is set when some provided address is not in `connected`;
the reply is queued onto the record iff `not_connected`, and resolved with
`true` otherwise.  Returns the updated table, `new_addrs`, and the
resolutions performed. -/
def connectOccupied (contacts : List (Nat × Peer)) (known_contact : Peer)
    (new_contact : Contact) (outlet : Nat) :
    List (Nat × Peer) × List Nat × List Effect :=
  let new_addrs : List Nat :=
    sofList (new_contact.addresses.filter (fun a => a ∉ known_contact.dialing))
  let not_connected : Bool :=
    new_contact.addresses.any (fun a => a ∉ known_contact.connected)
  if not_connected then
    (minsert contacts new_contact.peer_id
      { known_contact with
          dial_promises := known_contact.dial_promises ++ [outlet] },
     new_addrs, [])
  else
    (contacts, new_addrs, [Effect.boolResolved outlet true])

/-- `ConnectionPoolBehaviour::connect` (`behaviour.rs` 147-189): dispatch
on the entry for the contact's peer id; on a vacant entry insert a fresh
dialing record; finally emit a `Dial` whenever the collected address set
is non-empty. -/
def connect (s : PoolState) (new_contact : Contact) (outlet : Nat) :
    PoolState × List Effect :=
  let branch : (List (Nat × Peer) × List Nat × List Effect) :=
    match mfind s.contacts new_contact.peer_id with
    | some known_contact => connectOccupied s.contacts known_contact new_contact outlet
    | none =>
        (minsert s.contacts new_contact.peer_id
          (Peer.mkDialing new_contact.addresses outlet),
         new_contact.addresses, [])
  let addresses := branch.2.1
  let s1 := { s with contacts := branch.1 }
  if addresses = [] then (s1, branch.2.2)
  else
    ({ s1 with
        events := s1.events ++ [SwarmAction.dial (some new_contact.peer_id) addresses] },
     branch.2.2)

/-- `ConnectionPoolBehaviour::disconnect`: emit `CloseConnection(all)` and
resolve the reply with `true` immediately. -/
def disconnect (s : PoolState) (peer_id : Nat) (outlet : Nat) :
    PoolState × List Effect :=
  ({ s with events := s.events ++ [SwarmAction.closeConnection peer_id] },
   [Effect.boolResolved outlet true])

/-- `ConnectionPoolBehaviour::is_connected`: reply with membership of the
peer in `contacts`. -/
def is_connected (s : PoolState) (peer_id : Nat) (outlet : Nat) :
    PoolState × List Effect :=
  (s, [Effect.boolResolved outlet (mfind s.contacts peer_id).isSome])

/-- `ConnectionPoolBehaviour::get_contact_impl`: flattened contact for a
known peer. -/
def get_contact_impl (s : PoolState) (peer_id : Nat) : Option Contact :=
  (mfind s.contacts peer_id).map (fun c => ⟨peer_id, c.addressesList⟩)

/-- `ConnectionPoolBehaviour::get_contact`: reply with the flattened
contact, if any. -/
def get_contact (s : PoolState) (peer_id : Nat) (outlet : Nat) :
    PoolState × List Effect :=
  (s, [Effect.contactResolved outlet (get_contact_impl s peer_id)])

/-- `ConnectionPoolBehaviour::send`: self-loop onto the staging queue with
`Ok`, `NotifyHandler` with an `OutParticle` for a known contact, and
`NotConnected` otherwise (`behaviour.rs` lines 213-252). -/
def send (s : PoolState) (tgt : Contact) (particle : Nat) (outlet : Nat) :
    PoolState × List Effect :=
  if tgt.peer_id = s.peer_id then
    ({ s with queue := s.queue ++ [particle] },
     [Effect.sendResolved outlet SendStatus.ok])
  else if (mfind s.contacts tgt.peer_id).isSome then
    ({ s with
        events := s.events ++
          [SwarmAction.notifyHandler tgt.peer_id
            (HandlerMessage.outParticle particle outlet)] }, [])
  else
    (s, [Effect.sendResolved outlet SendStatus.notConnected])

/-- `ConnectionPoolBehaviour::count_connections`: reply with the size of
the peer-record table. -/
def count_connections (s : PoolState) (outlet : Nat) : PoolState × List Effect :=
  (s, [Effect.natResolved outlet s.contacts.length])

/-- `ConnectionPoolBehaviour::add_subscriber`. -/
def add_subscriber (s : PoolState) (outlet : Nat) : PoolState × List Effect :=
  ({ s with subscribers := s.subscribers ++ [outlet] }, [])

/-- `ConnectionPoolBehaviour::add_discovered_addresses`: extend the
`discovered` set of the (possibly freshly defaulted) record. -/
def add_discovered_addresses (s : PoolState) (peer_id : Nat)
    (addresses : List Nat) : PoolState × List Effect :=
  let peer := (mfind s.contacts peer_id).getD Peer.default
  ({ s with
      contacts := minsert s.contacts peer_id
        { peer with discovered := sextend peer.discovered addresses } }, [])

/-- `ConnectionPoolBehaviour::add_connected_address`: move `maddr` into
`connected` (out of `dialing`/`discovered`), resolve all of the peer's
dial promises with `true`, drain the dialing registry for `maddr` with
the current contact snapshot, and set the gauge. -/
def add_connected_address (s : PoolState) (peer_id : Nat) (maddr : Nat) :
    PoolState × List Effect :=
  let step1 : List (Nat × Peer) × List Effect :=
    match mfind s.contacts peer_id with
    | some peer =>
        (minsert s.contacts peer_id
          { connected := sinsert peer.connected maddr
            discovered := serase peer.discovered maddr
            dialing := serase peer.dialing maddr
            dial_promises := [] },
         peer.dial_promises.map (fun p => Effect.boolResolved p true))
    | none =>
        (minsert s.contacts peer_id (Peer.mkConnected [maddr]), [])
  let s1 := { s with contacts := step1.1 }
  let step2 : PoolState × List Effect :=
    match mfind s1.dialing maddr with
    | some outs =>
        let contact := get_contact_impl s1 peer_id
        ({ s1 with dialing := merase s1.dialing maddr },
         outs.map (fun p => Effect.contactResolved p contact))
    | none => (s1, [])
  ({ step2.1 with gauge := (step2.1.contacts.length : Int) },
   step1.2 ++ step2.2)

/-- `ConnectionPoolBehaviour::remove_contact`: remove the record, broadcast
`Disconnected` with all remembered addresses, resolve remaining dial
promises with `false`, and set the gauge.  No-op when the record is
absent.  (The textual `reason` only feeds a log line and is omitted.) -/
def remove_contact (s : PoolState) (peer_id : Nat) : PoolState × List Effect :=
  match mfind s.contacts peer_id with
  | some contact =>
      let s1 := { s with contacts := merase s.contacts peer_id }
      ({ s1 with gauge := (s1.contacts.length : Int) },
       Effect.lifecycle (LifecycleEvent.disconnected ⟨peer_id, contact.addressesList⟩)
         :: contact.dial_promises.map (fun p => Effect.boolResolved p false))
  | none => (s, [])

/-- First statement of `cleanup_address`: drain the dialing registry for
`addr`, resolving every waiting promise with `None`. -/
def cleanup_registry (s : PoolState) (addr : Nat) : PoolState × List Effect :=
  match mfind s.dialing addr with
  | some outs =>
      ({ s with dialing := merase s.dialing addr },
       outs.map (fun p => Effect.contactResolved p none))
  | none => (s, [])

/-- The in-place record mutation inside `cleanup_address`: erase `addr`
from the three sets; when `dialing` ended up empty, take the promises (to
be resolved with `false`). -/
def cleanupPeerRecord (c : Peer) (addr : Nat) : Peer × List Effect :=
  let c1 : Peer :=
    { c with
        connected := serase c.connected addr
        discovered := serase c.discovered addr
        dialing := serase c.dialing addr }
  if c1.dialing = [] then
    ({ c1 with dial_promises := [] },
     c1.dial_promises.map (fun p => Effect.boolResolved p false))
  else (c1, [])

/-- `ConnectionPoolBehaviour::cleanup_address` (`behaviour.rs` 465-493):
drain the dialing registry for `addr` with `None`; then, when a peer id is
given and its record exists, remove `addr` from all three sets, resolve
all dial promises with `false` when `dialing` ended up empty, and remove
the whole record when both `connected` and `dialing` are empty. -/
def cleanup_address (s : PoolState) (peer : Option Nat) (addr : Nat) :
    PoolState × List Effect :=
  let step1 := cleanup_registry s addr
  let s1 := step1.1
  match peer with
  | none => step1
  | some peer_id =>
      match mfind s1.contacts peer_id with
      | none => step1
      | some contact =>
          let d := cleanupPeerRecord contact addr
          let c2 := d.1
          let s2 := { s1 with contacts := minsert s1.contacts peer_id c2 }
          if c2.connected = [] ∧ c2.dialing = [] then
            let r := remove_contact s2 peer_id
            (r.1, step1.2 ++ d.2 ++ r.2)
          else
            (s2, step1.2 ++ d.2)

/-- `ConnectionPoolBehaviour::on_connection_closed`: on
`remaining_established = 0` remove the contact, then always clean up the
remote address. -/
def on_connection_closed (s : PoolState) (peer_id : Nat) (remote_addr : Nat)
    (remaining_established : Nat) : PoolState × List Effect :=
  let step1 : PoolState × List Effect :=
    if remaining_established = 0 then remove_contact s peer_id else (s, [])
  let step2 := cleanup_address step1.1 (some peer_id) remote_addr
  (step2.1, step1.2 ++ step2.2)

/-- `handle_established_inbound_connection` and
`handle_established_outbound_connection` both register the connected
address and broadcast `Connected` with just that address. -/
def handle_established_connection (s : PoolState) (peer_id : Nat) (addr : Nat) :
    PoolState × List Effect :=
  let step1 := add_connected_address s peer_id addr
  (step1.1,
   step1.2 ++ [Effect.lifecycle (LifecycleEvent.connected ⟨peer_id, [addr]⟩)])

/-- The `DialError` shapes `on_dial_failure` distinguishes:
`DialPeerConditionFalse(Disconnected | NotDialing)`, `WrongPeerId` (with
the endpoint address), `Transport` (with the failed addresses), and
everything else. -/
inductive DialError where
  | peerConditionFalse
  | wrongPeerId (addr : Nat)
  | transport (addrs : List Nat)
  | other
deriving DecidableEq

/-- `ConnectionPoolBehaviour::on_dial_failure` (`behaviour.rs` 411-454):
ignore the benign peer-condition race; clean up the endpoint address on
`WrongPeerId` and each failed address on `Transport`; finally remove the
contact when the peer id is known. -/
def on_dial_failure (s : PoolState) (peer : Option Nat) (error : DialError) :
    PoolState × List Effect :=
  match error with
  | DialError.peerConditionFalse => (s, [])
  | _ =>
    let step1 : PoolState × List Effect :=
      match error with
      | DialError.wrongPeerId addr => cleanup_address s peer addr
      | DialError.transport addrs =>
          addrs.foldl
            (fun acc a =>
              let r := cleanup_address acc.1 peer a
              (r.1, acc.2 ++ r.2))
            (s, [])
      | _ => (s, [])
    match peer with
    | some peer_id =>
        let step2 := remove_contact step1.1 peer_id
        (step2.1, step1.2 ++ step2.2)
    | none => step1

/-- `FromSwarm::ConnectionEstablished` handling in `on_swarm_event`: clean
up every failed address of the dial attempt. -/
def on_connection_established (s : PoolState) (peer_id : Nat)
    (failed_addresses : List Nat) : PoolState × List Effect :=
  failed_addresses.foldl
    (fun acc a =>
      let r := cleanup_address acc.1 (some peer_id) a
      (r.1, acc.2 ++ r.2))
    (s, [])

/-- `ConnectionPoolBehaviour::on_connection_handler_event`: an inbound
particle is staged; `Upgrade` and handler errors are ignored; an
`OutParticle` hits `unreachable!`, which panics unconditionally — modelled
as `none`. -/
def on_connection_handler_event (s : PoolState)
    (event : Except Unit HandlerMessage) : Option PoolState :=
  match event with
  | Except.ok (HandlerMessage.inParticle particle) =>
      some { s with queue := s.queue ++ [particle] }
  | Except.ok HandlerMessage.upgrade => some s
  | Except.ok (HandlerMessage.outParticle _ _) => none
  | Except.error _ => some s

end ConnectionPoolBehaviour

/-- One operation of the pool: a command dispatched by `execute`, a swarm
event, a connection-establishment hook, or a discovered-address update.
Together these are all the entry points that touch the pool state. -/
inductive Op where
  | dial (addr : Nat) (out : Nat)
  | connect (contact : Contact) (outlet : Nat)
  | disconnect (peer : Nat) (outlet : Nat)
  | isConnected (peer : Nat) (outlet : Nat)
  | getContact (peer : Nat) (outlet : Nat)
  | send (tgt : Contact) (particle : Nat) (outlet : Nat)
  | countConnections (outlet : Nat)
  | lifecycleEvents (outlet : Nat)
  | addDiscoveredAddresses (peer : Nat) (addresses : List Nat)
  | establishedConnection (peer : Nat) (addr : Nat)
  | connectionEstablished (peer : Nat) (failed_addresses : List Nat)
  | connectionClosed (peer : Nat) (remote_addr : Nat) (remaining : Nat)
  | dialFailure (peer : Option Nat) (error : ConnectionPoolBehaviour.DialError)
  | listenFailure
deriving DecidableEq

/-- Dispatch one operation on the state, as `execute` / `on_swarm_event` /
the connection hooks do. -/
def applyOp (s : PoolState) : Op → PoolState × List Effect
  | Op.dial addr out => ConnectionPoolBehaviour.dial s addr out
  | Op.connect contact outlet => ConnectionPoolBehaviour.connect s contact outlet
  | Op.disconnect peer outlet => ConnectionPoolBehaviour.disconnect s peer outlet
  | Op.isConnected peer outlet => ConnectionPoolBehaviour.is_connected s peer outlet
  | Op.getContact peer outlet => ConnectionPoolBehaviour.get_contact s peer outlet
  | Op.send tgt particle outlet => ConnectionPoolBehaviour.send s tgt particle outlet
  | Op.countConnections outlet => ConnectionPoolBehaviour.count_connections s outlet
  | Op.lifecycleEvents outlet => ConnectionPoolBehaviour.add_subscriber s outlet
  | Op.addDiscoveredAddresses peer addresses =>
      ConnectionPoolBehaviour.add_discovered_addresses s peer addresses
  | Op.establishedConnection peer addr =>
      ConnectionPoolBehaviour.handle_established_connection s peer addr
  | Op.connectionEstablished peer failed =>
      ConnectionPoolBehaviour.on_connection_established s peer failed
  | Op.connectionClosed peer remote_addr remaining =>
      ConnectionPoolBehaviour.on_connection_closed s peer remote_addr remaining
  | Op.dialFailure peer error => ConnectionPoolBehaviour.on_dial_failure s peer error
  | Op.listenFailure => (s, [])

/-- Run a sequence of operations from a state. -/
def runOps (s : PoolState) : List Op → PoolState
  | [] => s
  | op :: rest => runOps (applyOp s op).1 rest

/-- The empty initial pool state produced by `ConnectionPoolBehaviour::new`
for a node with the given local peer id. -/
def initState (peer_id : Nat) : PoolState :=
  ⟨peer_id, [], [], [], [], [], 0⟩

/-- The `Disconnected` lifecycle broadcasts contained in an effect trace,
in order, each with the contact it carries. -/
def disconnectBroadcasts (effs : List Effect) : List Contact :=
  effs.filterMap (fun e =>
    match e with
    | Effect.lifecycle (LifecycleEvent.disconnected c) => some c
    | _ => none)

/-- A Peer record is non-trivial when one of its three address sets or its
promise list is non-empty (the record-existence invariant of the spec). -/
def PeerNontrivial (p : Peer) : Prop :=
  p.connected ≠ [] ∨ p.discovered ≠ [] ∨ p.dialing ≠ [] ∨ p.dial_promises ≠ []

instance (p : Peer) : Decidable (PeerNontrivial p) := by
  unfold PeerNontrivial; infer_instance

/-- Pairwise disjointness of the three address sets of one record. -/
def SetsDisjoint (p : Peer) : Prop :=
  (∀ a ∈ p.connected, a ∉ p.discovered) ∧
  (∀ a ∈ p.connected, a ∉ p.dialing) ∧
  (∀ a ∈ p.discovered, a ∉ p.dialing)

instance (p : Peer) : Decidable (SetsDisjoint p) := by
  unfold SetsDisjoint; infer_instance

/-- Every peer record in the table is non-trivial. -/
def RecordsNontrivial (s : PoolState) : Prop :=
  ∀ e ∈ s.contacts, PeerNontrivial e.2

/-- Every peer record has `connected` disjoint from `dialing`. -/
def ConnDialDisjoint (s : PoolState) : Prop :=
  ∀ e ∈ s.contacts, ∀ a ∈ e.2.connected, a ∉ e.2.dialing

/-- The `connected_peers` gauge agrees with the record count. -/
def GaugeOK (s : PoolState) : Prop :=
  s.gauge = (s.contacts.length : Int)

/-- Operations that never pass an empty address list to
`add_discovered_addresses`. -/
def OpNonDegenerate : Op → Prop
  | Op.addDiscoveredAddresses _ addresses => addresses ≠ []
  | _ => True

/-- Operations other than `connect` and `add_discovered_addresses` (the two
that can create a peer record without touching the gauge). -/
def OpGaugeSafe : Op → Prop
  | Op.connect _ _ => False
  | Op.addDiscoveredAddresses _ _ => False
  | _ => True

instance (op : Op) : Decidable (OpGaugeSafe op) := by
  unfold OpGaugeSafe
  rcases op <;> infer_instance

instance (op : Op) : Decidable (OpNonDegenerate op) := by
  unfold OpNonDegenerate
  rcases op <;> infer_instance

instance (s : PoolState) : Decidable (GaugeOK s) := by
  unfold GaugeOK
  infer_instance

/-- A node (local peer id 10) with one peer record: peer 0, connected at
address 1, nothing discovered, nothing dialing, no pending promises; the
gauge agrees with the single record. -/
def stateConnected1 : PoolState :=
  ⟨10, [], [(0, ⟨[1], [], [], []⟩)], [], [], [], 1⟩

/-- The state reached from the empty pool after an established connection
with peer 0 at address 1 followed by discovery of address 2 for peer 0. -/
def stateC2trace : PoolState :=
  runOps (initState 10)
    [Op.establishedConnection 0 1, Op.addDiscoveredAddresses 0 [2]]

/-- The state reached from the empty pool after an established connection
with peer 0 at address 1. -/
def stateC3base : PoolState :=
  (applyOp (initState 10) (Op.establishedConnection 0 1)).1

/-- A node with one peer record (peer 0 connected at address 1 with one
pending dial promise 9) and one dialing-registry entry (address 1 awaited
by promise 7). -/
def stateC4 : PoolState :=
  ⟨10, [], [(0, ⟨[1], [], [], [9]⟩)], [(1, [7])], [], [], 1⟩

theorem mem_sinsert {l : List Nat} {a b : Nat} :
    a ∈ sinsert l b ↔ a ∈ l ∨ a = b := by
  unfold sinsert
  split
  · rename_i h
    constructor
    · exact fun ha => Or.inl ha
    · rintro (ha | rfl) <;> [exact ha; exact h]
  · simp

theorem sinsert_ne_nil {l : List Nat} {b : Nat} : sinsert l b ≠ [] := by
  unfold sinsert
  split
  · rename_i h
    exact List.ne_nil_of_mem h
  · simp

theorem sinsert_nodup {l : List Nat} {b : Nat} (h : l.Nodup) :
    (sinsert l b).Nodup := by
  unfold sinsert
  split
  · exact h
  · rename_i hb
    simpa [List.nodup_append, h] using hb

theorem mem_serase {l : List Nat} {a b : Nat} :
    a ∈ serase l b ↔ a ∈ l ∧ a ≠ b := by
  simp [serase]

theorem mem_sextend {xs : List Nat} :
    ∀ {l : List Nat} {a : Nat},
      a ∈ sextend l xs ↔ a ∈ l ∨ a ∈ xs := by
  induction xs with
  | nil => intro l a; simp [sextend]
  | cons x xs ih =>
      intro l a
      have : sextend l (x :: xs) = sextend (sinsert l x) xs := rfl
      rw [this, ih, mem_sinsert]
      constructor
      · rintro ((h | rfl) | h) <;> simp_all
      · rintro (h | h)
        · exact Or.inl (Or.inl h)
        · rcases List.mem_cons.mp h with rfl | h
          · exact Or.inl (Or.inr rfl)
          · exact Or.inr h

theorem mem_sofList {xs : List Nat} {a : Nat} : a ∈ sofList xs ↔ a ∈ xs := by
  rw [sofList, mem_sextend]
  simp

theorem sextend_nodup {xs : List Nat} :
    ∀ {l : List Nat}, l.Nodup → (sextend l xs).Nodup := by
  induction xs with
  | nil => intro l h; exact h
  | cons x xs ih =>
      intro l h
      exact ih (sinsert_nodup h)

theorem sofList_nodup {xs : List Nat} : (sofList xs).Nodup :=
  sextend_nodup List.nodup_nil

theorem sextend_ne_nil {l xs : List Nat} (h : xs ≠ []) : sextend l xs ≠ [] := by
  rcases List.exists_mem_of_ne_nil xs h with ⟨x, hx⟩
  exact List.ne_nil_of_mem (mem_sextend.mpr (Or.inr hx))

theorem mfind_mem {β : Type} {m : List (Nat × β)} {k : Nat} {v : β}
    (h : mfind m k = some v) : (k, v) ∈ m := by
  induction m with
  | nil => simp [mfind] at h
  | cons e rest ih =>
      obtain ⟨k1, v1⟩ := e
      by_cases hk : k1 = k
      · subst hk
        simp [mfind] at h
        simp [h]
      · simp [mfind, hk] at h
        exact List.mem_cons_of_mem _ (ih h)

theorem mem_minsert {β : Type} {m : List (Nat × β)} {k : Nat} {v : β}
    {e : Nat × β} (h : e ∈ minsert m k v) : e ∈ m ∨ e = (k, v) := by
  induction m with
  | nil => simpa [minsert, or_comm] using h
  | cons e1 rest ih =>
      obtain ⟨k1, v1⟩ := e1
      by_cases hk : k1 = k
      · subst hk
        simp [minsert] at h
        rcases h with rfl | h
        · exact Or.inr rfl
        · exact Or.inl (List.mem_cons_of_mem _ h)
      · simp [minsert, hk] at h
        rcases h with rfl | h
        · exact Or.inl (List.mem_cons_self _ _)
        · rcases ih h with h | h
          · exact Or.inl (List.mem_cons_of_mem _ h)
          · exact Or.inr h

theorem mfind_minsert_self {β : Type} {m : List (Nat × β)} {k : Nat} {v : β} :
    mfind (minsert m k v) k = some v := by
  induction m with
  | nil => simp [minsert, mfind]
  | cons e rest ih =>
      obtain ⟨k1, v1⟩ := e
      by_cases hk : k1 = k
      · subst hk
        simp [minsert, mfind]
      · simp [minsert, mfind, hk, ih]

theorem mfind_minsert_ne {β : Type} {m : List (Nat × β)} {k q : Nat} {v : β}
    (h : q ≠ k) : mfind (minsert m k v) q = mfind m q := by
  induction m with
  | nil => simp [minsert, mfind, Ne.symm h]
  | cons e rest ih =>
      obtain ⟨k1, v1⟩ := e
      by_cases hk : k1 = k
      · subst hk
        simp [minsert, mfind, Ne.symm h, h]
      · simp [minsert, mfind, hk, ih]

theorem mem_merase {β : Type} {m : List (Nat × β)} {k : Nat} {e : Nat × β}
    (h : e ∈ merase m k) : e ∈ m ∧ e.1 ≠ k := by
  simpa [merase] using h

theorem mfind_merase_self {β : Type} {m : List (Nat × β)} {k : Nat} :
    mfind (merase m k) k = none := by
  induction m with
  | nil => simp [merase, mfind]
  | cons e rest ih =>
      obtain ⟨k1, v1⟩ := e
      by_cases hk : k1 = k
      · subst hk
        simpa [merase, mfind] using ih
      · simpa [merase, mfind, hk] using ih

theorem length_minsert_found {β : Type} {m : List (Nat × β)} {k : Nat}
    {v w : β} (h : mfind m k = some v) :
    (minsert m k w).length = m.length := by
  induction m with
  | nil => simp [mfind] at h
  | cons e rest ih =>
      obtain ⟨k1, v1⟩ := e
      by_cases hk : k1 = k
      · subst hk
        simp [minsert]
      · simp [mfind, hk] at h
        simp [minsert, hk, ih h]

theorem mfind_none_not_mem {β : Type} {m : List (Nat × β)} {k : Nat}
    (h : mfind m k = none) : ∀ e ∈ m, e.1 ≠ k := by
  induction m with
  | nil => intro e he; simp at he
  | cons e1 rest ih =>
      obtain ⟨k1, v1⟩ := e1
      intro e he
      by_cases hk : k1 = k
      · subst hk
        simp [mfind] at h
      · simp [mfind, hk] at h
        rcases List.mem_cons.mp he with rfl | he
        · exact hk
        · exact ih h e he

theorem mem_remove_contact {s : PoolState} {pid : Nat} {e : Nat × Peer}
    (h : e ∈ (ConnectionPoolBehaviour.remove_contact s pid).1.contacts) :
    e ∈ s.contacts ∧ e.1 ≠ pid := by
  unfold ConnectionPoolBehaviour.remove_contact at h
  split at h
  · exact mem_merase h
  · rename_i hnone
    exact ⟨h, mfind_none_not_mem hnone e h⟩

theorem contacts_remove_subset {s : PoolState} {pid : Nat} {e : Nat × Peer}
    (h : e ∈ (ConnectionPoolBehaviour.remove_contact s pid).1.contacts) :
    e ∈ s.contacts :=
  (mem_remove_contact h).1

theorem remove_contact_gauge {s : PoolState} {pid : Nat}
    (h : GaugeOK s) : GaugeOK (ConnectionPoolBehaviour.remove_contact s pid).1 := by
  unfold GaugeOK ConnectionPoolBehaviour.remove_contact
  split
  · rfl
  · exact h

theorem cleanup_registry_contacts (s : PoolState) (addr : Nat) :
    (ConnectionPoolBehaviour.cleanup_registry s addr).1.contacts = s.contacts := by
  unfold ConnectionPoolBehaviour.cleanup_registry
  split <;> rfl

theorem cleanup_registry_gauge (s : PoolState) (addr : Nat) :
    (ConnectionPoolBehaviour.cleanup_registry s addr).1.gauge = s.gauge := by
  unfold ConnectionPoolBehaviour.cleanup_registry
  split <;> rfl

theorem cleanupPeerRecord_connected (c : Peer) (addr : Nat) :
    (ConnectionPoolBehaviour.cleanupPeerRecord c addr).1.connected =
      serase c.connected addr := by
  simp only [ConnectionPoolBehaviour.cleanupPeerRecord]
  split <;> rfl

theorem cleanupPeerRecord_discovered (c : Peer) (addr : Nat) :
    (ConnectionPoolBehaviour.cleanupPeerRecord c addr).1.discovered =
      serase c.discovered addr := by
  simp only [ConnectionPoolBehaviour.cleanupPeerRecord]
  split <;> rfl

theorem cleanupPeerRecord_dialing (c : Peer) (addr : Nat) :
    (ConnectionPoolBehaviour.cleanupPeerRecord c addr).1.dialing =
      serase c.dialing addr := by
  simp only [ConnectionPoolBehaviour.cleanupPeerRecord]
  split <;> rfl

theorem cleanupPeerRecord_promises (c : Peer) (addr : Nat) :
    (ConnectionPoolBehaviour.cleanupPeerRecord c addr).1.dial_promises = [] ∨
    (ConnectionPoolBehaviour.cleanupPeerRecord c addr).1.dial_promises =
      c.dial_promises := by
  simp only [ConnectionPoolBehaviour.cleanupPeerRecord]
  split
  · exact Or.inl rfl
  · exact Or.inr rfl

/-- Every record in the table after `cleanup_address` is either an old
record, or the record of the cleaned peer: its three sets with `addr`
erased, its promises possibly drained, and kept only because `connected`
or `dialing` is still non-empty. -/
theorem mem_cleanup_contacts {s : PoolState} {p : Option Nat} {addr : Nat}
    {e : Nat × Peer}
    (h : e ∈ (ConnectionPoolBehaviour.cleanup_address s p addr).1.contacts) :
    e ∈ s.contacts ∨
    ∃ c, mfind s.contacts e.1 = some c ∧
      e.2.connected = serase c.connected addr ∧
      e.2.discovered = serase c.discovered addr ∧
      e.2.dialing = serase c.dialing addr ∧
      (e.2.dial_promises = [] ∨ e.2.dial_promises = c.dial_promises) ∧
      (e.2.connected ≠ [] ∨ e.2.dialing ≠ []) := by
  unfold ConnectionPoolBehaviour.cleanup_address at h
  cases p with
  | none =>
      rw [cleanup_registry_contacts] at h
      exact Or.inl h
  | some pid =>
      simp only [cleanup_registry_contacts] at h
      split at h
      · rw [cleanup_registry_contacts] at h
        exact Or.inl h
      · rename_i contact hfound
        split at h
        · rename_i hempty
          have h2 := mem_remove_contact h
          rcases mem_minsert h2.1 with h4 | h4
          · exact Or.inl h4
          · exact absurd (congrArg Prod.fst h4) h2.2
        · rcases mem_minsert h with h4 | h4
          · exact Or.inl h4
          · rename_i hkept
            refine Or.inr ⟨contact, ?_, ?_, ?_, ?_, ?_, ?_⟩
            · rw [h4]
              exact hfound
            · rw [h4]
              exact cleanupPeerRecord_connected contact addr
            · rw [h4]
              exact cleanupPeerRecord_discovered contact addr
            · rw [h4]
              exact cleanupPeerRecord_dialing contact addr
            · rw [h4]
              exact cleanupPeerRecord_promises contact addr
            · rw [h4]
              rcases not_and_or.mp hkept with hne | hne
              · exact Or.inl hne
              · exact Or.inr hne

theorem send_contacts (s : PoolState) (tgt : Contact) (particle outlet : Nat) :
    (ConnectionPoolBehaviour.send s tgt particle outlet).1.contacts = s.contacts := by
  unfold ConnectionPoolBehaviour.send
  split
  · rfl
  · split <;> rfl

theorem connect_contacts_occupied {s : PoolState} {c : Contact} {o : Nat}
    {known : Peer} (hm : mfind s.contacts c.peer_id = some known) :
    (ConnectionPoolBehaviour.connect s c o).1.contacts =
      (ConnectionPoolBehaviour.connectOccupied s.contacts known c o).1 := by
  unfold ConnectionPoolBehaviour.connect
  rw [hm]
  dsimp only
  split <;> rfl

theorem connect_contacts_vacant {s : PoolState} {c : Contact} {o : Nat}
    (hm : mfind s.contacts c.peer_id = none) :
    (ConnectionPoolBehaviour.connect s c o).1.contacts =
      minsert s.contacts c.peer_id (Peer.mkDialing c.addresses o) := by
  unfold ConnectionPoolBehaviour.connect
  rw [hm]
  dsimp only
  split <;> rfl

theorem mem_connectOccupied {contacts : List (Nat × Peer)} {known : Peer}
    {c : Contact} {o : Nat} {e : Nat × Peer}
    (h : e ∈ (ConnectionPoolBehaviour.connectOccupied contacts known c o).1) :
    e ∈ contacts ∨
    e = (c.peer_id, { known with dial_promises := known.dial_promises ++ [o] }) := by
  unfold ConnectionPoolBehaviour.connectOccupied at h
  dsimp only at h
  split at h
  · exact mem_minsert h
  · exact Or.inl h

theorem mem_connect_contacts {s : PoolState} {c : Contact} {o : Nat}
    {e : Nat × Peer}
    (h : e ∈ (ConnectionPoolBehaviour.connect s c o).1.contacts) :
    e ∈ s.contacts ∨
    (∃ known, mfind s.contacts c.peer_id = some known ∧
      e = (c.peer_id, { known with dial_promises := known.dial_promises ++ [o] })) ∨
    e = (c.peer_id, Peer.mkDialing c.addresses o) := by
  cases hm : mfind s.contacts c.peer_id with
  | some known =>
      rw [connect_contacts_occupied hm] at h
      rcases mem_connectOccupied h with h1 | h1
      · exact Or.inl h1
      · exact Or.inr (Or.inl ⟨known, rfl, h1⟩)
  | none =>
      rw [connect_contacts_vacant hm] at h
      rcases mem_minsert h with h1 | h1
      · exact Or.inl h1
      · exact Or.inr (Or.inr h1)

theorem add_connected_contacts_occupied {s : PoolState} {pid maddr : Nat}
    {peer : Peer} (hm : mfind s.contacts pid = some peer) :
    (ConnectionPoolBehaviour.add_connected_address s pid maddr).1.contacts =
      minsert s.contacts pid
        ⟨sinsert peer.connected maddr, serase peer.discovered maddr,
         serase peer.dialing maddr, []⟩ := by
  unfold ConnectionPoolBehaviour.add_connected_address
  rw [hm]
  dsimp only
  split <;> rfl

theorem add_connected_contacts_vacant {s : PoolState} {pid maddr : Nat}
    (hm : mfind s.contacts pid = none) :
    (ConnectionPoolBehaviour.add_connected_address s pid maddr).1.contacts =
      minsert s.contacts pid (Peer.mkConnected [maddr]) := by
  unfold ConnectionPoolBehaviour.add_connected_address
  rw [hm]
  dsimp only
  split <;> rfl

theorem mem_add_connected_contacts {s : PoolState} {pid maddr : Nat}
    {e : Nat × Peer}
    (h : e ∈ (ConnectionPoolBehaviour.add_connected_address s pid maddr).1.contacts) :
    e ∈ s.contacts ∨
    (∃ peer, mfind s.contacts pid = some peer ∧
      e = (pid, ⟨sinsert peer.connected maddr, serase peer.discovered maddr,
                 serase peer.dialing maddr, []⟩)) ∨
    e = (pid, Peer.mkConnected [maddr]) := by
  cases hm : mfind s.contacts pid with
  | some peer =>
      rw [add_connected_contacts_occupied hm] at h
      rcases mem_minsert h with h1 | h1
      · exact Or.inl h1
      · exact Or.inr (Or.inl ⟨peer, rfl, h1⟩)
  | none =>
      rw [add_connected_contacts_vacant hm] at h
      rcases mem_minsert h with h1 | h1
      · exact Or.inl h1
      · exact Or.inr (Or.inr h1)

theorem add_connected_gauge (s : PoolState) (pid maddr : Nat) :
    GaugeOK (ConnectionPoolBehaviour.add_connected_address s pid maddr).1 := rfl

theorem mem_add_discovered_contacts {s : PoolState} {pid : Nat}
    {addresses : List Nat} {e : Nat × Peer}
    (h : e ∈ (ConnectionPoolBehaviour.add_discovered_addresses
          s pid addresses).1.contacts) :
    e ∈ s.contacts ∨
    e = (pid,
      { (mfind s.contacts pid).getD Peer.default with
          discovered :=
            sextend ((mfind s.contacts pid).getD Peer.default).discovered
              addresses }) := by
  unfold ConnectionPoolBehaviour.add_discovered_addresses at h
  dsimp only at h
  exact mem_minsert h

theorem handle_established_fst (s : PoolState) (pid addr : Nat) :
    (ConnectionPoolBehaviour.handle_established_connection s pid addr).1 =
      (ConnectionPoolBehaviour.add_connected_address s pid addr).1 := rfl

theorem cleanup_nontrivial {s : PoolState} {p : Option Nat} {addr : Nat}
    (h : RecordsNontrivial s) :
    RecordsNontrivial (ConnectionPoolBehaviour.cleanup_address s p addr).1 := by
  intro e he
  rcases mem_cleanup_contacts he with h1 | ⟨c, _, _, _, _, _, hne⟩
  · exact h e h1
  · rcases hne with hne | hne
    · exact Or.inl hne
    · exact Or.inr (Or.inr (Or.inl hne))

theorem cleanup_disj {s : PoolState} {p : Option Nat} {addr : Nat}
    (h : ConnDialDisjoint s) :
    ConnDialDisjoint (ConnectionPoolBehaviour.cleanup_address s p addr).1 := by
  intro e he a hac had
  rcases mem_cleanup_contacts he with h1 | ⟨c, hc, hconn, _, hdial, _, _⟩
  · exact h e h1 a hac had
  · rw [hconn] at hac
    rw [hdial] at had
    exact h _ (mfind_mem hc) a (mem_serase.mp hac).1 (mem_serase.mp had).1

theorem remove_nontrivial {s : PoolState} {pid : Nat}
    (h : RecordsNontrivial s) :
    RecordsNontrivial (ConnectionPoolBehaviour.remove_contact s pid).1 :=
  fun e he => h e (contacts_remove_subset he)

theorem remove_disj {s : PoolState} {pid : Nat} (h : ConnDialDisjoint s) :
    ConnDialDisjoint (ConnectionPoolBehaviour.remove_contact s pid).1 :=
  fun e he => h e (contacts_remove_subset he)

theorem cleanup_gauge {s : PoolState} {p : Option Nat} {addr : Nat}
    (h : GaugeOK s) :
    GaugeOK (ConnectionPoolBehaviour.cleanup_address s p addr).1 := by
  have hreg : GaugeOK (ConnectionPoolBehaviour.cleanup_registry s addr).1 := by
    unfold GaugeOK
    rw [cleanup_registry_contacts, cleanup_registry_gauge]
    exact h
  unfold ConnectionPoolBehaviour.cleanup_address
  cases p with
  | none => exact hreg
  | some pid =>
      dsimp only
      split
      · exact hreg
      · rename_i contact hfound
        have hs2 : GaugeOK
            { (ConnectionPoolBehaviour.cleanup_registry s addr).1 with
                contacts :=
                  minsert (ConnectionPoolBehaviour.cleanup_registry s addr).1.contacts
                    pid (ConnectionPoolBehaviour.cleanupPeerRecord contact addr).1 } := by
          unfold GaugeOK
          dsimp only
          rw [length_minsert_found hfound]
          exact hreg
        split
        · exact remove_contact_gauge hs2
        · exact hs2

theorem foldl_cleanup_preserves {I : PoolState → Prop}
    (hI : ∀ (st : PoolState) (p : Option Nat) (a : Nat),
      I st → I (ConnectionPoolBehaviour.cleanup_address st p a).1)
    (p : Option Nat) :
    ∀ (addrs : List Nat) (init : PoolState × List Effect), I init.1 →
      I (addrs.foldl (fun acc a =>
          let r := ConnectionPoolBehaviour.cleanup_address acc.1 p a
          (r.1, acc.2 ++ r.2)) init).1 := by
  intro addrs
  induction addrs with
  | nil => intro init h; exact h
  | cons x xs ih =>
      intro init h
      exact ih _ (hI _ _ _ h)

theorem send_gauge (s : PoolState) (tgt : Contact) (particle outlet : Nat) :
    (ConnectionPoolBehaviour.send s tgt particle outlet).1.gauge = s.gauge := by
  unfold ConnectionPoolBehaviour.send
  split
  · rfl
  · split <;> rfl

theorem on_connection_closed_inv {I : PoolState → Prop}
    (hclean : ∀ (st : PoolState) (p : Option Nat) (a : Nat),
      I st → I (ConnectionPoolBehaviour.cleanup_address st p a).1)
    (hremove : ∀ (st : PoolState) (pid : Nat),
      I st → I (ConnectionPoolBehaviour.remove_contact st pid).1)
    {s : PoolState} {pid addr rem : Nat} (h : I s) :
    I (ConnectionPoolBehaviour.on_connection_closed s pid addr rem).1 := by
  unfold ConnectionPoolBehaviour.on_connection_closed
  dsimp only
  apply hclean
  split
  · exact hremove _ _ h
  · exact h

theorem on_dial_failure_inv {I : PoolState → Prop}
    (hclean : ∀ (st : PoolState) (p : Option Nat) (a : Nat),
      I st → I (ConnectionPoolBehaviour.cleanup_address st p a).1)
    (hremove : ∀ (st : PoolState) (pid : Nat),
      I st → I (ConnectionPoolBehaviour.remove_contact st pid).1)
    {s : PoolState} {p : Option Nat} {err : ConnectionPoolBehaviour.DialError}
    (h : I s) :
    I (ConnectionPoolBehaviour.on_dial_failure s p err).1 := by
  unfold ConnectionPoolBehaviour.on_dial_failure
  cases err with
  | peerConditionFalse => exact h
  | wrongPeerId addr =>
      dsimp only
      cases p with
      | some pid => exact hremove _ _ (hclean _ _ _ h)
      | none => exact hclean _ _ _ h
  | transport addrs =>
      dsimp only
      cases p with
      | some pid =>
          exact hremove _ _ (foldl_cleanup_preserves hclean _ addrs (s, []) h)
      | none => exact foldl_cleanup_preserves hclean _ addrs (s, []) h
  | other =>
      dsimp only
      cases p with
      | some pid => exact hremove _ _ h
      | none => exact h

/-- Claim C2 (amended): provided `add_discovered_addresses` is never
invoked with an empty address list, every pool operation preserves the
invariant that each existing Peer record has a non-empty `connected`,
`discovered` or `dialing` set or a non-empty `dial_promises` list.  The
original claim additionally asserted that records are destroyed only when
all three address sets are empty; that direction is refuted by
the counterexample (removal on disconnect and dial failure happens with
non-empty sets, and an empty `add_discovered_addresses` call creates a
fully empty record). -/
theorem claim_C2_record_existence_amended (s : PoolState) (op : Op)
    (hop : OpNonDegenerate op) (h : RecordsNontrivial s) :
    RecordsNontrivial (applyOp s op).1 := by
  cases op with
  | dial a o => exact h
  | connect c o =>
      intro e he
      rcases mem_connect_contacts he with h1 | ⟨known, hm, h1⟩ | h1
      · exact h e h1
      · subst h1
        exact Or.inr (Or.inr (Or.inr (by simp)))
      · subst h1
        exact Or.inr (Or.inr (Or.inr (by simp [Peer.mkDialing])))
  | disconnect pid o => exact h
  | isConnected pid o => exact h
  | getContact pid o => exact h
  | send tgt particle o =>
      intro e he
      simp only [applyOp] at he
      rw [send_contacts] at he
      exact h e he
  | countConnections o => exact h
  | lifecycleEvents o => exact h
  | addDiscoveredAddresses pid addrs =>
      intro e he
      rcases mem_add_discovered_contacts he with h1 | h1
      · exact h e h1
      · subst h1
        exact Or.inr (Or.inl (sextend_ne_nil hop))
  | establishedConnection pid addr =>
      intro e he
      simp only [applyOp] at he
      rw [handle_established_fst] at he
      rcases mem_add_connected_contacts he with h1 | ⟨peer, hm, h1⟩ | h1
      · exact h e h1
      · subst h1
        exact Or.inl sinsert_ne_nil
      · subst h1
        exact Or.inl
          (List.ne_nil_of_mem (mem_sofList.mpr (List.mem_singleton_self addr)))
  | connectionEstablished pid failed =>
      exact foldl_cleanup_preserves (fun st p a => cleanup_nontrivial)
        (some pid) failed (s, []) h
  | connectionClosed pid addr rem =>
      exact on_connection_closed_inv (fun st p a => cleanup_nontrivial)
        (fun st pid2 => remove_nontrivial) h
  | dialFailure p err =>
      exact on_dial_failure_inv (fun st p a => cleanup_nontrivial)
        (fun st pid2 => remove_nontrivial) h
  | listenFailure => exact h

/-- Claim C3 (amended): after every pool operation, `connected` and
`dialing` of every Peer record are disjoint.  The original claim demanded
pairwise disjointness of all three sets, which is refuted by the
counterexample: `add_discovered_addresses` extends `discovered` without
removing the addresses from `connected` or `dialing`. -/
theorem claim_C3_sets_disjoint_amended (s : PoolState) (op : Op)
    (h : ConnDialDisjoint s) : ConnDialDisjoint (applyOp s op).1 := by
  cases op with
  | dial a o => exact h
  | connect c o =>
      intro e he a hac had
      rcases mem_connect_contacts he with h1 | ⟨known, hm, h1⟩ | h1
      · exact h e h1 a hac had
      · subst h1
        exact h _ (mfind_mem hm) a hac had
      · subst h1
        simp [Peer.mkDialing] at hac
  | disconnect pid o => exact h
  | isConnected pid o => exact h
  | getContact pid o => exact h
  | send tgt particle o =>
      intro e he
      simp only [applyOp] at he
      rw [send_contacts] at he
      exact h e he
  | countConnections o => exact h
  | lifecycleEvents o => exact h
  | addDiscoveredAddresses pid addrs =>
      intro e he a hac had
      rcases mem_add_discovered_contacts he with h1 | h1
      · exact h e h1 a hac had
      · subst h1
        cases hm : mfind s.contacts pid with
        | some peer =>
            simp only [hm, Option.getD_some] at hac had
            exact h _ (mfind_mem hm) a hac had
        | none =>
            simp [hm, Peer.default] at hac
  | establishedConnection pid addr =>
      intro e he a hac had
      simp only [applyOp] at he
      rw [handle_established_fst] at he
      rcases mem_add_connected_contacts he with h1 | ⟨peer, hm, h1⟩ | h1
      · exact h e h1 a hac had
      · subst h1
        have h2 := mem_serase.mp had
        rcases mem_sinsert.mp hac with h3 | h3
        · exact h _ (mfind_mem hm) a h3 h2.1
        · exact h2.2 h3
      · subst h1
        simp [Peer.mkConnected] at had
  | connectionEstablished pid failed =>
      exact foldl_cleanup_preserves (fun st p a => cleanup_disj)
        (some pid) failed (s, []) h
  | connectionClosed pid addr rem =>
      exact on_connection_closed_inv (fun st p a => cleanup_disj)
        (fun st pid2 => remove_disj) h
  | dialFailure p err =>
      exact on_dial_failure_inv (fun st p a => cleanup_disj)
        (fun st pid2 => remove_disj) h
  | listenFailure => exact h

/-- Claim C8 (amended): after every command or swarm-event handler other
than `connect` and `add_discovered_addresses`, the `connected_peers`
gauge equals the number of entries in the peer-record table, provided it
did before.  The original claim over all handlers is refuted by the
counterexample: `connect` (and `add_discovered_addresses`) can create a
record without updating the gauge. -/
theorem claim_C8_gauge_fidelity_amended (s : PoolState) (op : Op)
    (hop : OpGaugeSafe op) (h : GaugeOK s) : GaugeOK (applyOp s op).1 := by
  cases op with
  | dial a o => exact h
  | connect c o => exact absurd hop (by simp [OpGaugeSafe])
  | disconnect pid o => exact h
  | isConnected pid o => exact h
  | getContact pid o => exact h
  | send tgt particle o =>
      unfold GaugeOK
      simp only [applyOp]
      rw [send_contacts, send_gauge]
      exact h
  | countConnections o => exact h
  | lifecycleEvents o => exact h
  | addDiscoveredAddresses pid addrs => exact absurd hop (by simp [OpGaugeSafe])
  | establishedConnection pid addr =>
      simp only [applyOp]
      rw [handle_established_fst]
      exact add_connected_gauge s pid addr
  | connectionEstablished pid failed =>
      exact foldl_cleanup_preserves (fun st p a => cleanup_gauge)
        (some pid) failed (s, []) h
  | connectionClosed pid addr rem =>
      exact on_connection_closed_inv (fun st p a => cleanup_gauge)
        (fun st pid2 => remove_contact_gauge) h
  | dialFailure p err =>
      exact on_dial_failure_inv (fun st p a => cleanup_gauge)
        (fun st pid2 => remove_contact_gauge) h
  | listenFailure => exact h

theorem remove_contact_dialing (s : PoolState) (pid : Nat) :
    (ConnectionPoolBehaviour.remove_contact s pid).1.dialing = s.dialing := by
  unfold ConnectionPoolBehaviour.remove_contact
  split <;> rfl

theorem remove_contact_mfind_none (s : PoolState) (pid : Nat) :
    mfind (ConnectionPoolBehaviour.remove_contact s pid).1.contacts pid = none := by
  unfold ConnectionPoolBehaviour.remove_contact
  split
  · exact mfind_merase_self
  · rename_i hn
    exact hn

theorem remove_contact_effects {s : PoolState} {pid : Nat} {c : Peer}
    (hc : mfind s.contacts pid = some c) :
    (ConnectionPoolBehaviour.remove_contact s pid).2 =
      Effect.lifecycle (LifecycleEvent.disconnected ⟨pid, c.addressesList⟩)
        :: c.dial_promises.map (fun p => Effect.boolResolved p false) := by
  unfold ConnectionPoolBehaviour.remove_contact
  rw [hc]

theorem cleanup_registry_effects_mem {s : PoolState} {addr : Nat}
    {outs : List Nat} (h : mfind s.dialing addr = some outs) :
    ∀ p ∈ outs,
      Effect.contactResolved p none ∈ (ConnectionPoolBehaviour.cleanup_registry s addr).2 := by
  unfold ConnectionPoolBehaviour.cleanup_registry
  rw [h]
  intro p hp
  exact List.mem_map_of_mem _ hp

theorem cleanup_registry_effects_shape (s : PoolState) (addr : Nat) :
    ∃ outs : List Nat, (ConnectionPoolBehaviour.cleanup_registry s addr).2 =
      outs.map (fun p => Effect.contactResolved p none) := by
  unfold ConnectionPoolBehaviour.cleanup_registry
  split
  · exact ⟨_, rfl⟩
  · exact ⟨[], rfl⟩

theorem cleanup_registry_dialing_none (s : PoolState) (addr : Nat) :
    mfind (ConnectionPoolBehaviour.cleanup_registry s addr).1.dialing addr = none := by
  unfold ConnectionPoolBehaviour.cleanup_registry
  split
  · exact mfind_merase_self
  · rename_i hn
    exact hn

theorem cleanup_address_no_record {s : PoolState} {pid addr : Nat}
    (h : mfind s.contacts pid = none) :
    ConnectionPoolBehaviour.cleanup_address s (some pid) addr =
      ConnectionPoolBehaviour.cleanup_registry s addr := by
  unfold ConnectionPoolBehaviour.cleanup_address
  dsimp only
  have h1 : mfind (ConnectionPoolBehaviour.cleanup_registry s addr).1.contacts pid = none := by
    rw [cleanup_registry_contacts]
    exact h
  rw [h1]

theorem cleanup_effects_prefix (s : PoolState) (p : Option Nat) (addr : Nat) :
    ∃ tail, (ConnectionPoolBehaviour.cleanup_address s p addr).2 =
      (ConnectionPoolBehaviour.cleanup_registry s addr).2 ++ tail := by
  unfold ConnectionPoolBehaviour.cleanup_address
  cases p with
  | none => exact ⟨[], (List.append_nil _).symm⟩
  | some pid =>
      dsimp only
      split
      · exact ⟨[], (List.append_nil _).symm⟩
      · split
        · exact ⟨_, by rw [List.append_assoc]⟩
        · exact ⟨_, rfl⟩

theorem cleanup_dialing_none (s : PoolState) (p : Option Nat) (addr : Nat) :
    mfind (ConnectionPoolBehaviour.cleanup_address s p addr).1.dialing addr = none := by
  unfold ConnectionPoolBehaviour.cleanup_address
  cases p with
  | none => exact cleanup_registry_dialing_none s addr
  | some pid =>
      dsimp only
      split
      · exact cleanup_registry_dialing_none s addr
      · split
        · rw [remove_contact_dialing]
          exact cleanup_registry_dialing_none s addr
        · exact cleanup_registry_dialing_none s addr

theorem cleanupPeerRecord_effects_of_empty {c : Peer} {addr : Nat}
    (h : serase c.dialing addr = []) :
    (ConnectionPoolBehaviour.cleanupPeerRecord c addr).2 =
      c.dial_promises.map (fun p => Effect.boolResolved p false) := by
  unfold ConnectionPoolBehaviour.cleanupPeerRecord
  dsimp only
  rw [if_pos h]

theorem cleanup_record_cases {s : PoolState} {pid addr : Nat} {c : Peer}
    (hc : mfind s.contacts pid = some c) :
    (¬(serase c.connected addr = [] ∧ serase c.dialing addr = []) ∧
      mfind (ConnectionPoolBehaviour.cleanup_address s (some pid) addr).1.contacts pid =
        some (ConnectionPoolBehaviour.cleanupPeerRecord c addr).1) ∨
    ((serase c.connected addr = [] ∧ serase c.dialing addr = []) ∧
      mfind (ConnectionPoolBehaviour.cleanup_address s (some pid) addr).1.contacts pid =
        none) := by
  unfold ConnectionPoolBehaviour.cleanup_address
  dsimp only
  have h1 : mfind (ConnectionPoolBehaviour.cleanup_registry s addr).1.contacts pid =
      some c := by
    rw [cleanup_registry_contacts]
    exact hc
  rw [h1]
  dsimp only
  split
  · rename_i hemp
    right
    refine ⟨⟨?_, ?_⟩, remove_contact_mfind_none _ _⟩
    · rw [← cleanupPeerRecord_connected c addr]
      exact hemp.1
    · rw [← cleanupPeerRecord_dialing c addr]
      exact hemp.2
  · rename_i hkept
    left
    refine ⟨?_, mfind_minsert_self⟩
    intro hff
    refine hkept ⟨?_, ?_⟩
    · rw [cleanupPeerRecord_connected]
      exact hff.1
    · rw [cleanupPeerRecord_dialing]
      exact hff.2

theorem cleanup_promises_resolved {s : PoolState} {pid addr : Nat} {c : Peer}
    (hc : mfind s.contacts pid = some c) (hde : serase c.dialing addr = []) :
    ∀ p ∈ c.dial_promises,
      Effect.boolResolved p false ∈
        (ConnectionPoolBehaviour.cleanup_address s (some pid) addr).2 := by
  intro p hp
  unfold ConnectionPoolBehaviour.cleanup_address
  dsimp only
  have h1 : mfind (ConnectionPoolBehaviour.cleanup_registry s addr).1.contacts pid =
      some c := by
    rw [cleanup_registry_contacts]
    exact hc
  rw [h1]
  dsimp only
  have hd2 := cleanupPeerRecord_effects_of_empty hde
  split
  · apply List.mem_append_left
    apply List.mem_append_right
    rw [hd2]
    exact List.mem_map_of_mem _ hp
  · apply List.mem_append_right
    rw [hd2]
    exact List.mem_map_of_mem _ hp

theorem disconnectBroadcasts_append (a b : List Effect) :
    disconnectBroadcasts (a ++ b) =
      disconnectBroadcasts a ++ disconnectBroadcasts b := by
  unfold disconnectBroadcasts
  exact List.filterMap_append a b _

theorem disconnectBroadcasts_contactResolved (outs : List Nat)
    (v : Option Contact) :
    disconnectBroadcasts (outs.map (fun p => Effect.contactResolved p v)) = [] := by
  induction outs with
  | nil => rfl
  | cons x xs ih =>
      unfold disconnectBroadcasts at ih ⊢
      simp [List.filterMap_cons, ih]

theorem disconnectBroadcasts_boolResolved (ps : List Nat) (b : Bool) :
    disconnectBroadcasts (ps.map (fun p => Effect.boolResolved p b)) = [] := by
  induction ps with
  | nil => rfl
  | cons x xs ih =>
      unfold disconnectBroadcasts at ih ⊢
      simp [List.filterMap_cons, ih]

theorem disconnectBroadcasts_cons_disconnected (c : Contact) (l : List Effect) :
    disconnectBroadcasts
      (Effect.lifecycle (LifecycleEvent.disconnected c) :: l) =
      c :: disconnectBroadcasts l := rfl

/-- Claim C4: `cleanup_address(Some(peer_id), addr)` resolves every promise
pending in the dialing registry under `addr` with `None` and removes the
entry; when a Peer record exists, `addr` is removed from all three of its
address sets, every pending dial promise of the peer is resolved with
`false` whenever the post-removal `dialing` set is empty, and the whole
record is removed whenever post-removal `connected` and `dialing` are both
empty. -/
theorem claim_C4_cleanup_address_contract (s : PoolState) (pid addr : Nat) :
    (∀ outs, mfind s.dialing addr = some outs →
      ∀ p ∈ outs, Effect.contactResolved p none ∈
        (ConnectionPoolBehaviour.cleanup_address s (some pid) addr).2) ∧
    mfind (ConnectionPoolBehaviour.cleanup_address s (some pid) addr).1.dialing
      addr = none ∧
    (∀ c, mfind s.contacts pid = some c →
      (∀ c2,
        mfind (ConnectionPoolBehaviour.cleanup_address s (some pid) addr).1.contacts
          pid = some c2 →
        addr ∉ c2.connected ∧ addr ∉ c2.discovered ∧ addr ∉ c2.dialing) ∧
      (serase c.dialing addr = [] →
        ∀ p ∈ c.dial_promises, Effect.boolResolved p false ∈
          (ConnectionPoolBehaviour.cleanup_address s (some pid) addr).2) ∧
      (serase c.connected addr = [] → serase c.dialing addr = [] →
        mfind (ConnectionPoolBehaviour.cleanup_address s (some pid) addr).1.contacts
          pid = none)) := by
  refine ⟨?_, cleanup_dialing_none s _ addr, ?_⟩
  · intro outs ho p hp
    rcases cleanup_effects_prefix s (some pid) addr with ⟨tail, htail⟩
    rw [htail]
    exact List.mem_append_left _ (cleanup_registry_effects_mem ho p hp)
  · intro c hc
    refine ⟨?_, cleanup_promises_resolved hc, ?_⟩
    · intro c2 hc2
      rcases cleanup_record_cases hc with ⟨hk, hm⟩ | ⟨hk, hm⟩
      · rw [hm] at hc2
        injection hc2 with h2
        subst h2
        refine ⟨?_, ?_, ?_⟩
        · rw [cleanupPeerRecord_connected]
          intro hmem
          exact (mem_serase.mp hmem).2 rfl
        · rw [cleanupPeerRecord_discovered]
          intro hmem
          exact (mem_serase.mp hmem).2 rfl
        · rw [cleanupPeerRecord_dialing]
          intro hmem
          exact (mem_serase.mp hmem).2 rfl
      · rw [hm] at hc2
        cases hc2
    · intro hce hde
      rcases cleanup_record_cases hc with ⟨hk, hm⟩ | ⟨hk, hm⟩
      · exact absurd ⟨hce, hde⟩ hk
      · exact hm

/-- Witness for C4 at a concrete state: a pool with registry entry
`1 ↦ [7]` and peer 0 connected at 1 with pending promise 9; the cleanup of
address 1 resolves promise 7 with `None`, resolves promise 9 with `false`,
and removes the record. -/
theorem claim_C4_witness :
    mfind stateC4.dialing 1 = some [7] ∧
    Effect.contactResolved 7 none ∈
      (ConnectionPoolBehaviour.cleanup_address stateC4 (some 0) 1).2 ∧
    mfind stateC4.contacts 0 = some ⟨[1], [], [], [9]⟩ ∧
    Effect.boolResolved 9 false ∈
      (ConnectionPoolBehaviour.cleanup_address stateC4 (some 0) 1).2 ∧
    mfind (ConnectionPoolBehaviour.cleanup_address stateC4 (some 0) 1).1.contacts
      0 = none :=
  ⟨by decide,
   (claim_C4_cleanup_address_contract stateC4 0 1).1 [7] (by decide) 7 (by decide),
   by decide,
   ((claim_C4_cleanup_address_contract stateC4 0 1).2.2 ⟨[1], [], [], [9]⟩
     (by decide)).2.1 (by decide) 9 (by decide),
   ((claim_C4_cleanup_address_contract stateC4 0 1).2.2 ⟨[1], [], [], [9]⟩
     (by decide)).2.2 (by decide) (by decide)⟩

/-- Claim C5: a `ConnectionClosed` event with `remaining_established = 0`
for a peer with a record broadcasts exactly one `Disconnected` lifecycle
event, carrying a contact whose address list is the deduplicated union of
the removed record's three address sets at the moment of removal, and
resolves every dial promise still pending on the record with `false`. -/
theorem claim_C5_disconnect_fanout (s : PoolState) (pid addr : Nat) (c : Peer)
    (hc : mfind s.contacts pid = some c) :
    disconnectBroadcasts
      (ConnectionPoolBehaviour.on_connection_closed s pid addr 0).2 =
      [⟨pid, c.addressesList⟩] ∧
    (∀ a, a ∈ c.addressesList ↔
      (a ∈ c.connected ∨ a ∈ c.discovered ∨ a ∈ c.dialing)) ∧
    c.addressesList.Nodup ∧
    (∀ p ∈ c.dial_promises,
      Effect.boolResolved p false ∈
        (ConnectionPoolBehaviour.on_connection_closed s pid addr 0).2) := by
  have heff : (ConnectionPoolBehaviour.on_connection_closed s pid addr 0).2 =
      (ConnectionPoolBehaviour.remove_contact s pid).2 ++
      (ConnectionPoolBehaviour.cleanup_address
        (ConnectionPoolBehaviour.remove_contact s pid).1 (some pid) addr).2 := by
    unfold ConnectionPoolBehaviour.on_connection_closed
    dsimp only
    rw [if_pos rfl]
  have hclean : ConnectionPoolBehaviour.cleanup_address
      (ConnectionPoolBehaviour.remove_contact s pid).1 (some pid) addr =
      ConnectionPoolBehaviour.cleanup_registry
        (ConnectionPoolBehaviour.remove_contact s pid).1 addr :=
    cleanup_address_no_record (remove_contact_mfind_none s pid)
  refine ⟨?_, ?_, sofList_nodup, ?_⟩
  · rw [heff, disconnectBroadcasts_append, remove_contact_effects hc, hclean]
    rcases cleanup_registry_effects_shape
      (ConnectionPoolBehaviour.remove_contact s pid).1 addr with ⟨outs, ho⟩
    rw [ho, disconnectBroadcasts_contactResolved,
        disconnectBroadcasts_cons_disconnected, disconnectBroadcasts_boolResolved,
        List.append_nil]
  · intro a
    simp [Peer.addressesList, mem_sofList, or_assoc]
  · intro p hp
    rw [heff, remove_contact_effects hc]
    apply List.mem_append_left
    exact List.mem_cons_of_mem _ (List.mem_map_of_mem _ hp)

/-- Witness for C5 at a concrete state: closing the last connection of
peer 0 (record: connected at 1, promise 9 pending) broadcasts one
`Disconnected` with address list `[1]` and resolves promise 9 with
`false`. -/
theorem claim_C5_witness :
    mfind stateC4.contacts 0 = some ⟨[1], [], [], [9]⟩ ∧
    disconnectBroadcasts
      (ConnectionPoolBehaviour.on_connection_closed stateC4 0 1 0).2 =
      [⟨0, Peer.addressesList ⟨[1], [], [], [9]⟩⟩] ∧
    Effect.boolResolved 9 false ∈
      (ConnectionPoolBehaviour.on_connection_closed stateC4 0 1 0).2 :=
  ⟨by decide,
   (claim_C5_disconnect_fanout stateC4 0 1 ⟨[1], [], [], [9]⟩ (by decide)).1,
   (claim_C5_disconnect_fanout stateC4 0 1 ⟨[1], [], [], [9]⟩ (by decide)).2.2.2
     9 (by decide)⟩

/-- Counterexample for C1 as stated: in a pool where peer 0 has a record
with `connected = [1]` and the caller connects with exactly that address,
the reply is resolved with `true`, but a `Dial` swarm action IS emitted
(the events queue grows from `[]` to one `Dial`), contradicting "no swarm
action is emitted by the call". -/
theorem claim_C1_counterexample :
    (mfind stateConnected1.contacts 0).map Peer.connected = some [1] ∧
    (ConnectionPoolBehaviour.connect stateConnected1 ⟨0, [1]⟩ 9).2 =
      [Effect.boolResolved 9 true] ∧
    stateConnected1.events = [] ∧
    (ConnectionPoolBehaviour.connect stateConnected1 ⟨0, [1]⟩ 9).1.events =
      [SwarmAction.dial (some 0) [1]] := by decide

/-- Claim C1 (amended): when every address of the contact is already in
the record's `connected` set, `connect` resolves the reply with `true`
synchronously and leaves the table unchanged, but it still emits a `Dial`
carrying the provided addresses not in `dialing` whenever that collection
is non-empty (no swarm action only when it is empty). -/
theorem claim_C1_idempotent_connect_amended (s : PoolState) (c : Contact)
    (outlet : Nat) (known : Peer)
    (hm : mfind s.contacts c.peer_id = some known)
    (hconn : ∀ a ∈ c.addresses, a ∈ known.connected) :
    ConnectionPoolBehaviour.connect s c outlet =
      (if sofList (c.addresses.filter (fun a => a ∉ known.dialing)) = [] then s
       else { s with events := s.events ++
          [SwarmAction.dial (some c.peer_id)
            (sofList (c.addresses.filter (fun a => a ∉ known.dialing)))] },
       [Effect.boolResolved outlet true]) := by
  have hnc : (c.addresses.any (fun a => a ∉ known.connected)) = false := by
    rw [List.any_eq_false]
    intro a ha
    simp [hconn a ha]
  unfold ConnectionPoolBehaviour.connect ConnectionPoolBehaviour.connectOccupied
  rw [hm]
  dsimp only
  rw [hnc]
  simp only [Bool.false_eq_true, if_false]
  split <;> rfl

/-- Witness for (amended) C1 at a concrete state: peer 0 connected at 1,
connect with `[1]`. -/
theorem claim_C1_witness :
    mfind stateConnected1.contacts 0 = some ⟨[1], [], [], []⟩ ∧
    ConnectionPoolBehaviour.connect stateConnected1 ⟨0, [1]⟩ 9 =
      (if sofList (([1] : List Nat).filter
            (fun a => a ∉ (⟨[1], [], [], []⟩ : Peer).dialing)) = []
       then stateConnected1
       else { stateConnected1 with events := stateConnected1.events ++
          [SwarmAction.dial (some 0)
            (sofList (([1] : List Nat).filter
              (fun a => a ∉ (⟨[1], [], [], []⟩ : Peer).dialing)))] },
       [Effect.boolResolved 9 true]) :=
  ⟨by decide,
   claim_C1_idempotent_connect_amended stateConnected1 ⟨0, [1]⟩ 9
     ⟨[1], [], [], []⟩ (by decide) (by decide)⟩

/-- Counterexample for C9 as stated: peer 0 has `connected = [1]`,
`dialing = []`; a connect with `[1, 2]` emits a `Dial` whose address
collection is `[1, 2]` — it contains the already-connected address 1 and
is therefore not "exactly [B] = [2]". -/
theorem claim_C9_counterexample :
    (mfind stateConnected1.contacts 0).map Peer.connected = some [1] ∧
    (mfind stateConnected1.contacts 0).map Peer.dialing = some [] ∧
    (ConnectionPoolBehaviour.connect stateConnected1 ⟨0, [1, 2]⟩ 9).1.events =
      [SwarmAction.dial (some 0) [1, 2]] ∧
    ((1 : Nat) ∈ ([1, 2] : List Nat)) ∧ ((1 : Nat) ∉ ([2] : List Nat)) := by
  decide

/-- Claim C9 (amended): for a peer with `connected` containing A,
`dialing` empty, and a new address B, `connect` with `[A, B]` emits a
`Dial` carrying the full collection `[A, B]` (every provided address not
already being dialed, including the connected A), queues the reply on
`dial_promises`, and performs no synchronous resolution. -/
theorem claim_C9_connect_dial_set_amended (s : PoolState)
    (P A B outlet : Nat) (known : Peer)
    (hm : mfind s.contacts P = some known)
    (hA : A ∈ known.connected) (hB : B ∉ known.connected)
    (hdial : known.dialing = []) :
    (ConnectionPoolBehaviour.connect s ⟨P, [A, B]⟩ outlet).1.events =
      s.events ++ [SwarmAction.dial (some P) [A, B]] ∧
    (mfind (ConnectionPoolBehaviour.connect s ⟨P, [A, B]⟩ outlet).1.contacts
        P).map Peer.dial_promises =
      some (known.dial_promises ++ [outlet]) ∧
    (ConnectionPoolBehaviour.connect s ⟨P, [A, B]⟩ outlet).2 = [] := by
  have hAB : B ≠ A := fun h => hB (h ▸ hA)
  have hnc : (([A, B] : List Nat).any (fun a => a ∉ known.connected)) = true := by
    rw [List.any_eq_true]
    refine ⟨B, by simp, by simp [hB]⟩
  have hfil : (([A, B] : List Nat).filter (fun a => a ∉ known.dialing)) = [A, B] := by
    simp [List.filter_eq_self, hdial]
  have hsof : sofList [A, B] = [A, B] := by
    simp [sofList, sextend, sinsert, List.foldl, hAB]
  unfold ConnectionPoolBehaviour.connect ConnectionPoolBehaviour.connectOccupied
  rw [hm]
  dsimp only
  rw [hfil, hsof, hnc]
  simp only [if_true]
  rw [if_neg (by simp)]
  refine ⟨rfl, ?_, rfl⟩
  rw [mfind_minsert_self]
  rfl

/-- Witness for (amended) C9 at a concrete state: peer 0 connected at 1,
connect with `[1, 2]`. -/
theorem claim_C9_witness :
    mfind stateConnected1.contacts 0 = some ⟨[1], [], [], []⟩ ∧
    (ConnectionPoolBehaviour.connect stateConnected1 ⟨0, [1, 2]⟩ 9).1.events =
      stateConnected1.events ++ [SwarmAction.dial (some 0) [1, 2]] ∧
    (mfind (ConnectionPoolBehaviour.connect stateConnected1
        ⟨0, [1, 2]⟩ 9).1.contacts 0).map Peer.dial_promises = some [9] :=
  ⟨by decide,
   (claim_C9_connect_dial_set_amended stateConnected1 0 1 2 9 ⟨[1], [], [], []⟩
     (by decide) (by decide) (by decide) (by decide)).1,
   (claim_C9_connect_dial_set_amended stateConnected1 0 1 2 9 ⟨[1], [], [], []⟩
     (by decide) (by decide) (by decide) (by decide)).2.1⟩

/-- Claim C10: a `connect` on a peer that already has a record leaves the
record's three address sets unchanged (in particular nothing is inserted
into `dialing`), and the only field that may change is `dial_promises`,
which grows by at most the one supplied reply channel. -/
theorem claim_C10_connect_existing_frame (s : PoolState) (c : Contact)
    (outlet : Nat) (known : Peer)
    (hm : mfind s.contacts c.peer_id = some known) :
    ∃ known2,
      mfind (ConnectionPoolBehaviour.connect s c outlet).1.contacts c.peer_id =
        some known2 ∧
      known2.connected = known.connected ∧
      known2.discovered = known.discovered ∧
      known2.dialing = known.dialing ∧
      (known2.dial_promises = known.dial_promises ++ [outlet] ∨
       known2.dial_promises = known.dial_promises) := by
  rw [connect_contacts_occupied hm]
  unfold ConnectionPoolBehaviour.connectOccupied
  dsimp only
  split
  · exact ⟨_, mfind_minsert_self, rfl, rfl, rfl, Or.inl rfl⟩
  · exact ⟨known, hm, rfl, rfl, rfl, Or.inr rfl⟩

/-- Witness for C10 at a concrete state. -/
theorem claim_C10_witness :
    mfind stateConnected1.contacts 0 = some ⟨[1], [], [], []⟩ ∧
    ∃ known2,
      mfind (ConnectionPoolBehaviour.connect stateConnected1
          ⟨0, [1, 2]⟩ 9).1.contacts 0 = some known2 ∧
      known2.connected = [1] ∧ known2.discovered = [] ∧ known2.dialing = [] ∧
      (known2.dial_promises = [] ++ [9] ∨ known2.dial_promises = []) :=
  ⟨by decide,
   claim_C10_connect_existing_frame stateConnected1 ⟨0, [1, 2]⟩ 9
     ⟨[1], [], [], []⟩ (by decide)⟩

/-- Claim C6: exactly one of three outcomes of `send`: self-loop (stage the
particle and reply `Ok`), known contact (enqueue a `NotifyHandler` with the
`OutParticle`, nothing staged, nothing resolved), unknown contact (reply
`NotConnected`, no action, nothing staged). -/
theorem claim_C6_send_trichotomy (s : PoolState) (tgt : Contact)
    (particle outlet : Nat) :
    (tgt.peer_id = s.peer_id →
      ConnectionPoolBehaviour.send s tgt particle outlet =
        ({ s with queue := s.queue ++ [particle] },
         [Effect.sendResolved outlet SendStatus.ok])) ∧
    (tgt.peer_id ≠ s.peer_id → (mfind s.contacts tgt.peer_id).isSome = true →
      ConnectionPoolBehaviour.send s tgt particle outlet =
        ({ s with events := s.events ++
            [SwarmAction.notifyHandler tgt.peer_id
              (HandlerMessage.outParticle particle outlet)] }, [])) ∧
    (tgt.peer_id ≠ s.peer_id → mfind s.contacts tgt.peer_id = none →
      ConnectionPoolBehaviour.send s tgt particle outlet =
        (s, [Effect.sendResolved outlet SendStatus.notConnected])) := by
  refine ⟨fun h1 => ?_, fun h1 h2 => ?_, fun h1 h2 => ?_⟩
  · unfold ConnectionPoolBehaviour.send
    rw [if_pos h1]
  · unfold ConnectionPoolBehaviour.send
    rw [if_neg h1, if_pos h2]
  · unfold ConnectionPoolBehaviour.send
    rw [if_neg h1, if_neg (by simp [h2])]

/-- Witness for C6 at concrete states: a self-send, a send to the known
peer 0, and a send to the unknown peer 3. -/
theorem claim_C6_witness :
    (ConnectionPoolBehaviour.send stateConnected1 ⟨10, []⟩ 5 7 =
      ({ stateConnected1 with queue := [5] },
       [Effect.sendResolved 7 SendStatus.ok])) ∧
    (ConnectionPoolBehaviour.send stateConnected1 ⟨0, [1]⟩ 5 7 =
      ({ stateConnected1 with events :=
          [SwarmAction.notifyHandler 0 (HandlerMessage.outParticle 5 7)] },
       [])) ∧
    (ConnectionPoolBehaviour.send stateConnected1 ⟨3, []⟩ 5 7 =
      (stateConnected1, [Effect.sendResolved 7 SendStatus.notConnected])) :=
  ⟨(claim_C6_send_trichotomy stateConnected1 ⟨10, []⟩ 5 7).1 rfl,
   (claim_C6_send_trichotomy stateConnected1 ⟨0, [1]⟩ 5 7).2.1
     (by decide) (by decide),
   (claim_C6_send_trichotomy stateConnected1 ⟨3, []⟩ 5 7).2.2
     (by decide) (by decide)⟩

/-- Counterexample for C7 as stated: the claim says that in release builds
an inbound `OutParticle` produces a loud error log *without crashing*;
the source runs `unreachable!`, which panics in every build profile — the
embedded handler yields the panic outcome (`none`) with no build-mode
branch in the code. -/
theorem claim_C7_counterexample :
    ConnectionPoolBehaviour.on_connection_handler_event (initState 10)
      (Except.ok (HandlerMessage.outParticle 5 6)) = none := rfl

/-- Claim C7 (amended): an inbound `OutParticle` handler event is a fatal
assertion violation in every build (unconditional panic), while all other
handler outcomes (`InParticle`, `Upgrade`, handler error) let the driver
continue without failing. -/
theorem claim_C7_out_particle_fatal_amended (s : PoolState) :
    (∀ particle completion,
      ConnectionPoolBehaviour.on_connection_handler_event s
        (Except.ok (HandlerMessage.outParticle particle completion)) = none) ∧
    (∀ particle,
      ConnectionPoolBehaviour.on_connection_handler_event s
        (Except.ok (HandlerMessage.inParticle particle)) =
        some { s with queue := s.queue ++ [particle] }) ∧
    ConnectionPoolBehaviour.on_connection_handler_event s
      (Except.ok HandlerMessage.upgrade) = some s ∧
    (∀ err, ConnectionPoolBehaviour.on_connection_handler_event s
      (Except.error err) = some s) :=
  ⟨fun _ _ => rfl, fun _ => rfl, rfl, fun _ => rfl⟩

/-- Counterexample for C2 as stated: an `add_discovered_addresses` call
with an empty list creates a Peer record whose three sets and promise list
are all empty; and a `ConnectionClosed` with `remaining_established = 0`
destroys a record while its `connected` set is still non-empty (and its
`discovered` holds another address). -/
theorem claim_C2_counterexample :
    mfind (applyOp (initState 10)
        (Op.addDiscoveredAddresses 0 [])).1.contacts 0 = some Peer.default ∧
    ¬ PeerNontrivial Peer.default ∧
    (mfind stateC2trace.contacts 0).map Peer.connected = some [1] ∧
    (mfind stateC2trace.contacts 0).map Peer.discovered = some [2] ∧
    mfind (applyOp stateC2trace
        (Op.connectionClosed 0 1 0)).1.contacts 0 = none := by decide

/-- Witness for (amended) C2 at a concrete input. -/
theorem claim_C2_witness :
    OpNonDegenerate (Op.addDiscoveredAddresses 1 [2]) ∧
    RecordsNontrivial (applyOp (initState 0)
      (Op.addDiscoveredAddresses 1 [2])).1 :=
  ⟨by decide,
   claim_C2_record_existence_amended (initState 0)
     (Op.addDiscoveredAddresses 1 [2]) (by decide)
     (fun e he => absurd he (List.not_mem_nil e))⟩

/-- Counterexample for C3 as stated: after an established connection at
address 1 and a discovery of the same address 1 for peer 0, the record has
`connected = [1]` and `discovered = [1]`: `connected ∩ discovered ≠ ∅`. -/
theorem claim_C3_counterexample :
    mfind (applyOp stateC3base
        (Op.addDiscoveredAddresses 0 [1])).1.contacts 0 =
      some ⟨[1], [1], [], []⟩ ∧
    ¬ SetsDisjoint ⟨[1], [1], [], []⟩ := by decide

/-- Witness for (amended) C3 at a concrete input. -/
theorem claim_C3_witness :
    ConnDialDisjoint (applyOp (initState 0)
      (Op.establishedConnection 0 1)).1 :=
  claim_C3_sets_disjoint_amended (initState 0) (Op.establishedConnection 0 1)
    (fun e he => absurd he (List.not_mem_nil e))

/-- Counterexample for C8 as stated: from the empty pool (gauge 0, in
agreement), a `connect` creating a fresh record leaves the gauge at 0
while the table has 1 entry. -/
theorem claim_C8_counterexample :
    GaugeOK (initState 10) ∧
    (ConnectionPoolBehaviour.connect (initState 10)
      ⟨0, [1]⟩ 9).1.contacts.length = 1 ∧
    (ConnectionPoolBehaviour.connect (initState 10) ⟨0, [1]⟩ 9).1.gauge = 0 ∧
    ¬ GaugeOK (ConnectionPoolBehaviour.connect (initState 10) ⟨0, [1]⟩ 9).1 := by
  decide

/-- Witness for (amended) C8 at a concrete input. -/
theorem claim_C8_witness :
    OpGaugeSafe (Op.establishedConnection 0 1) ∧
    GaugeOK (applyOp (initState 10) (Op.establishedConnection 0 1)).1 :=
  ⟨by decide,
   claim_C8_gauge_fidelity_amended (initState 10)
     (Op.establishedConnection 0 1) (by decide) (by decide)⟩

end ConnectionPool
